import Mathlib

/-!
# Instantly webhook → HubSpot reconciliation (`automation-server.js`)

A shallow embedding of the `POST /webhook/instantly` handler.  JSON values
are an inductive type, the two axios clients are a record of fallible
functions, and the handler is a pure function that returns the response
status it sent together with the list of outbound calls it issued, in order.
-/

set_option autoImplicit false

namespace Automation

/-! ## JavaScript values -/

/-- A JavaScript string: the list of its UTF-16 code units (each below
65536). -/
abbrev JsString := List Nat

/-- UTF-16 code units of one Unicode scalar value: itself below 65536, a
surrogate pair from there on. -/
def utf16Char (c : Char) : List Nat :=
  if c.toNat < 65536 then [c.toNat]
  else [55296 + (c.toNat - 65536) / 1024, 56320 + (c.toNat - 65536) % 1024]

/-- UTF-16 code units of a text; string literals of the source are read
through it. -/
def utf16 (s : String) : JsString :=
  s.data.flatMap utf16Char

instance : Coe String JsString := ⟨utf16⟩

/-- JavaScript values reachable from a JSON request body, plus `undefined`
(the result of reading a missing property).  A number is an integer that a
double holds exactly and prints digit for digit (magnitude at most 2^53); a
string is any sequence of UTF-16 code units. -/
inductive JVal where
  | undefined
  | null
  | bool (b : Bool)
  | num (n : Int) (safe : n.natAbs ≤ 9007199254740992)
  | str (s : JsString)
  | arr (items : List JVal)
  | obj (fields : List (String × JVal))

/-- A JSON object: its members in source order.  Property names stay texts,
no operation of the handler looks inside one. -/
abbrev Obj := List (String × JVal)

/-- JavaScript truthiness (`ToBoolean`). -/
def truthy : JVal → Bool
  | .undefined => false
  | .null => false
  | .bool b => b
  | .num n _ => n != 0
  | .str s => s != []
  | .arr _ => true
  | .obj _ => true

/-- The JavaScript operator `a || b`. -/
def jsOr (a b : JVal) : JVal :=
  if truthy a then a else b

/-- Member lookup in an object; of several members with one key the last
one counts, as in `JSON.parse`. -/
def lookup? (k : String) : Obj → Option JVal
  | [] => none
  | (k', v) :: rest =>
    match lookup? k rest with
    | some w => some w
    | none => if k' = k then some v else none

/-- Property read `o.k` on an object given by its members. -/
def Obj.get (o : Obj) (k : String) : JVal :=
  (lookup? k o).getD .undefined

/-- Property read `v.k` for a value that is neither `null` nor `undefined`
and a key that no primitive wrapper prototype defines: objects answer with
the member, everything else with `undefined`. -/
def getProp (v : JVal) (k : String) : JVal :=
  match v with
  | .obj fields => Obj.get fields k
  | _ => .undefined

/-- Optional chaining `v?.k`. -/
def getPropOpt (v : JVal) (k : String) : JVal :=
  match v with
  | .undefined => .undefined
  | .null => .undefined
  | w => getProp w k

/-- Strict equality `v === 'lit'` against a string literal. -/
def strictEqStr (v : JVal) (lit : String) : Bool :=
  match v with
  | .str s => s = utf16 lit
  | _ => false

/-- Does the object have an own member named `k`? -/
def hasOwn (k : String) : Obj → Bool
  | [] => false
  | (k', _) :: rest => k' = k || hasOwn k rest

mutual
/-- JavaScript `ToString(v)`, as applied by template literals; `none` is a
`TypeError`.  A parsed object inherits `Object.prototype.toString` unless it
has an own member `toString`; such a member is never callable, the inherited
`valueOf` returns the object itself, and the conversion throws.  An array
joins its items. -/
def jsToString : JVal → Option JsString
  | .undefined => some (utf16 "undefined")
  | .null => some (utf16 "null")
  | .bool true => some (utf16 "true")
  | .bool false => some (utf16 "false")
  | .num n _ => some (utf16 (toString n))
  | .str s => some s
  | .arr items => joinItems items
  | .obj fields => if hasOwn "toString" fields then none else some (utf16 "[object Object]")
/-- `Array.prototype.join(',')`: `null` and `undefined` items print as the
empty string, any other item through `ToString`. -/
def joinItems : List JVal → Option JsString
  | [] => some []
  | [.undefined] => some []
  | [.null] => some []
  | [x] => jsToString x
  | .undefined :: rest => (joinItems rest).map (fun t => utf16 "," ++ t)
  | .null :: rest => (joinItems rest).map (fun t => utf16 "," ++ t)
  | x :: rest =>
    match jsToString x, joinItems rest with
    | some a, some t => some (a ++ utf16 "," ++ t)
    | _, _ => none
end

/-- Pair every item with its index, starting from `i`, as a property key. -/
def indexed : Nat → List JVal → Obj
  | _, [] => []
  | i, x :: rest => (toString i, x) :: indexed (i + 1) rest

/-- Own enumerable properties copied by object spread `...v`: the members of
an object, the indexed items of an array, the indexed code units of a string
(each a string of length one), nothing for other values. -/
def ownEntries : JVal → Obj
  | .obj fields => fields
  | .arr items => indexed 0 items
  | .str s => indexed 0 (s.map (fun u => JVal.str [u]))
  | _ => []

/-- Assignment `o[k] = v` on an object given by its members: an existing key
keeps its place and takes the new value, a new key goes last. -/
def setProp (o : Obj) (k : String) (v : JVal) : Obj :=
  match o with
  | [] => [(k, v)]
  | (k', w) :: rest => if k' = k then (k', v) :: rest else (k', w) :: setProp rest k v

/-- Object spread `{ ...base, ...extra }`.  Members stay in insertion order;
the reordering JavaScript applies to integer-like keys is not modelled. -/
def spreadInto (base : Obj) (extra : Obj) : Obj :=
  extra.foldl (fun acc kv => setProp acc kv.1 kv.2) base

/-- Lower-casing of one code unit: `A`-`Z` go to `a`-`z`, other code units
stay.  JavaScript also lowers letters outside ASCII; of those only U+0130 and
U+212A yield an ASCII letter (`i` followed by U+0307, and `k`).  No keyword of
the test has a `k`, and `i` occurs in them only at the head of `interested`,
where `n` must follow it, so the keyword test, the one use of the lowered
text, comes out the same. -/
def lowerUnit (u : Nat) : Nat :=
  if 65 ≤ u ∧ u ≤ 90 then u + 32 else u

/-- The method call `v.toLowerCase()`: only strings have the method, any other
value raises a `TypeError` (`none`). -/
def toLowerCase : JVal → Option JsString
  | .str s => some (s.map lowerUnit)
  | _ => none

/-- Substring test on code-unit lists: does `pat` occur in `txt`? -/
def occursIn (pat txt : List Nat) : Bool :=
  txt.tails.any (fun t => pat.isPrefixOf t)

/-- The alternatives of the regular expression `/yes|interested|schedule|sure/`. -/
def KEYWORDS : List String := ["yes", "interested", "schedule", "sure"]

/-- The call `/yes|interested|schedule|sure/.test(txt)`: an unanchored
alternation of literals matches when one of them occurs in the text. -/
def keywordTest (txt : JsString) : Bool :=
  KEYWORDS.any (fun k => occursIn (utf16 k) txt)

/-! ## Outbound calls and collaborators -/

/-- One entry of a HubSpot search filter group. -/
structure Filter where
  propertyName : String
  operator : String
  value : JVal

/-- Body of `POST /crm/v3/objects/engagements`: the four properties (a
`MEETING` record has no `direction`) and the id of the single associated
contact (`associations[0].to.id`; its `type` is always `'contact'`). -/
structure Engagement where
  engagement_type : String
  subject : JVal
  body : JVal
  direction : Option String
  contactId : JVal

/-- An outbound HTTP call, with the part of the request the handler chooses. -/
inductive Call where
  /-- Search: `hubspot.post('/crm/v3/objects/contacts/search', ...)`. -/
  | searchContacts (filterGroups : List (List Filter)) (properties : List String)
  /-- Create: `hubspot.post('/crm/v3/objects/contacts', ...)`. -/
  | createContact (properties : Obj)
  /-- Log: `hubspot.post('/crm/v3/objects/engagements', ...)`. -/
  | createEngagement (e : Engagement)
  /-- Fetch: `instantlyClient.get(path)`. -/
  | fetchMessage (path : JsString)

/-- Payload of a successful contact search (`searchRes.data`). -/
structure SearchResponse where
  total : Int
  results : List Obj

/-- The two axios clients.  Every call either rejects (`none`: network error
or non-2xx status) or resolves with the response payload.  A created contact
and a fetched message are JSON objects; a search payload carries an integer
`total` and a list of contact objects. -/
structure Collaborators where
  search : List (List Filter) → List String → Option SearchResponse
  createContact : Obj → Option Obj
  createEngagement : Engagement → Option Unit
  fetchMessage : JsString → Option Obj

/-- Does the collaborator resolve this call? -/
def Collaborators.succeeds (env : Collaborators) : Call → Bool
  | .searchContacts g p => (env.search g p).isSome
  | .createContact props => (env.createContact props).isSome
  | .createEngagement e => (env.createEngagement e).isSome
  | .fetchMessage path => (env.fetchMessage path).isSome

/-- A stretch of the `try` block: the calls it issued, in order, and the value
it produced, or `none` when it threw. -/
structure Run (α : Type) where
  calls : List Call
  value : Option α

/-- Sequencing of two stretches: the second runs only when the first did not
throw. -/
def Run.andThen {α β : Type} (r : Run α) (f : α → Run β) : Run β :=
  match r.value with
  | none => ⟨r.calls, none⟩
  | some a => ⟨r.calls ++ (f a).calls, (f a).value⟩

/-- An awaited outbound call. -/
def await {α : Type} (c : Call) (reply : Option α) : Run α :=
  ⟨[c], reply⟩

/-- A stretch that issues no call. -/
def skip : Run Unit :=
  ⟨[], some ()⟩

/-- Evaluation of an expression that issues no call; `none` is a thrown
`TypeError`. -/
def evaluate {α : Type} (v : Option α) : Run α :=
  ⟨[], v⟩

/-! ## The handler -/

/-- The request as the handler reads it: `req.body.event_type` and
`req.body.data`, each `undefined` when the body has no such member. -/
structure Request where
  event_type : JVal
  data : JVal

/-- The constant `VALID_EVENTS`. -/
def VALID_EVENTS : List String :=
  ["reply_received", "lead_interested", "lead_meeting_booked"]

/-- The call `VALID_EVENTS.includes(event)`. -/
def validEvent (event : JVal) : Bool :=
  match event with
  | .str s => (VALID_EVENTS.map utf16).contains s
  | _ => false

/-- The line `const data = req.body.data || {}`. -/
def payload (req : Request) : JVal :=
  jsOr req.data (.obj [])

/-- The text the keyword test runs on:
`(data.reply_text_snippet||'').toLowerCase()`, `none` on a `TypeError`. -/
def snippetText (data : JVal) : Option JsString :=
  toLowerCase (jsOr (getProp data "reply_text_snippet") (.str ""))

/-- Result of the two guards that precede the `try` block. -/
inductive Verdict where
  /-- A guard answered `res.sendStatus(204)`. -/
  | ignored
  /-- Both guards passed; the `try` block runs. -/
  | processable
  /-- A guard threw; nothing catches it and no status is sent. -/
  | threw
  deriving DecidableEq

/-- The two guards of the handler (source lines 41-45). -/
def classify (req : Request) : Verdict :=
  let event := req.event_type
  let data := payload req
  if !validEvent event then .ignored
  else if strictEqStr event "reply_received" then
    match snippetText data with
    | none => .threw
    | some txt => if !keywordTest txt then .ignored else .processable
  else .processable

/-- The filter list built on source lines 49-53. -/
def buildFilters (data : JVal) : List Filter :=
  let filters : List Filter := []
  let filters :=
    if truthy (getProp data "email") then
      filters ++ [⟨"email", "EQ", getProp data "email"⟩]
    else filters
  let filters :=
    if truthy (getProp data "phone") then
      filters ++ [⟨"phone", "EQ", getProp data "phone"⟩]
    else filters
  let filters :=
    if truthy (getPropOpt (getProp data "customFields") "alternate_email") then
      filters ++ [⟨"alternate_email", "EQ",
        getProp (getProp data "customFields") "alternate_email"⟩]
    else filters
  filters

/-- The projection requested from the search. -/
def SEARCH_PROPERTIES : List String :=
  ["email", "phone", "firstname", "lastname"]

/-- The object literal `props` of source lines 66-77. -/
def contactProps (event data : JVal) : Obj :=
  spreadInto
    [ ("email", getProp data "email"),
      ("phone", getProp data "phone"),
      ("firstname", jsOr (getProp data "first_name") (getProp data "firstName")),
      ("lastname", jsOr (getProp data "last_name") (getProp data "lastName")),
      ("company", getProp data "company"),
      ("website", getProp data "website"),
      ("linkedin", jsOr (getProp data "linkedin_url") (getProp data "linkedin")),
      ("hs_lead_status",
        .str (if strictEqStr event "lead_meeting_booked" then "Meeting scheduled"
              else "Interested")),
      ("hs_marketing_contact_status", .str "NON_MARKETING") ]
    (ownEntries (getProp data "customFields"))

/-- Search, then take the first result or create (source lines 55-80).
Yields `contactId`. -/
def resolveContact (env : Collaborators) (event data : JVal) : Run JVal :=
  (await (.searchContacts [buildFilters data] SEARCH_PROPERTIES)
      (env.search [buildFilters data] SEARCH_PROPERTIES)).andThen fun searchRes =>
    if searchRes.total > 0 then
      match searchRes.results with
      | first :: _ => evaluate (some (first.get "id"))
      | [] => evaluate none
    else
      (await (.createContact (contactProps event data))
          (env.createContact (contactProps event data))).andThen fun createRes =>
        evaluate (some (createRes.get "id"))

/-- The inbound email record (source lines 83-88). -/
def inboundEmail (data contactId : JVal) : Engagement :=
  { engagement_type := "EMAIL"
    subject := jsOr (getProp data "subject") (.str "Incoming from Instantly")
    body := jsOr (getProp data "reply_text_html") (getProp data "reply_text_snippet")
    direction := some "IN"
    contactId := contactId }

/-- The outbound email record built from the fetched message `orig.data`
(source lines 93-98). -/
def outboundEmail (orig : Obj) (contactId : JVal) : Engagement :=
  { engagement_type := "EMAIL"
    subject := orig.get "subject"
    body := orig.get "body_html"
    direction := some "OUT"
    contactId := contactId }

/-- The meeting record (source lines 103-107); `none` when the template
literal of its body throws. -/
def meetingRecord (data contactId : JVal) : Option Engagement :=
  (jsToString (getProp data "meeting_time")).map fun t =>
    { engagement_type := "MEETING"
      subject := .str "Meeting booked via Instantly"
      body := .str (utf16 "Scheduled at " ++ t)
      direction := none
      contactId := contactId }

/-- The path of the message fetch, the template literal of source line 92;
`none` when it throws. -/
def emailPath (data : JVal) : Option JsString :=
  (jsToString (getProp data "original_email_id")).map fun t => utf16 "/emails/" ++ t

/-- Step 3 of the `try` block. -/
def logInbound (env : Collaborators) (data contactId : JVal) : Run Unit :=
  await (.createEngagement (inboundEmail data contactId))
    (env.createEngagement (inboundEmail data contactId))

/-- Step 4 of the `try` block. -/
def logOriginal (env : Collaborators) (data contactId : JVal) : Run Unit :=
  if truthy (getProp data "original_email_id") then
    (evaluate (emailPath data)).andThen fun path =>
      (await (.fetchMessage path) (env.fetchMessage path)).andThen fun orig =>
        await (.createEngagement (outboundEmail orig contactId))
          (env.createEngagement (outboundEmail orig contactId))
  else skip

/-- Step 5 of the `try` block. -/
def logMeeting (env : Collaborators) (event data contactId : JVal) : Run Unit :=
  if strictEqStr event "lead_meeting_booked" then
    (evaluate (meetingRecord data contactId)).andThen fun meeting =>
      await (.createEngagement meeting) (env.createEngagement meeting)
  else skip

/-- The body of the `try` block (source lines 48-108). -/
def reconcile (env : Collaborators) (event data : JVal) : Run Unit :=
  (resolveContact env event data).andThen fun contactId =>
    (logInbound env data contactId).andThen fun _ =>
      (logOriginal env data contactId).andThen fun _ =>
        logMeeting env event data contactId

/-- What one request leads to: the status passed to `res.sendStatus`, `none`
when the handler threw before sending any, and the outbound calls issued. -/
structure Outcome where
  status : Option Nat
  calls : List Call

/-- The handler of `POST /webhook/instantly`. -/
def handler (env : Collaborators) (req : Request) : Outcome :=
  match classify req with
  | .ignored => ⟨some 204, []⟩
  | .threw => ⟨none, []⟩
  | .processable =>
    let run := reconcile env req.event_type (payload req)
    match run.value with
    | some _ => ⟨some 200, run.calls⟩
    | none => ⟨some 500, run.calls⟩

/-! ## Vocabulary for the statements -/

/-- Steps 3 to 5 of the `try` block, for a resolved contact: the part of
`reconcile` after `resolveContact`. -/
def logAll (env : Collaborators) (event data contactId : JVal) : Run Unit :=
  (logInbound env data contactId).andThen fun _ =>
    (logOriginal env data contactId).andThen fun _ =>
      logMeeting env event data contactId

/-- Is the call a contact search? -/
def isSearch : Call → Bool
  | .searchContacts _ _ => true
  | _ => false

/-- Is the call a contact create? -/
def isCreate : Call → Bool
  | .createContact _ => true
  | _ => false

/-- The engagement records among a list of calls, in order. -/
def engagementsOf : List Call → List Engagement
  | [] => []
  | .createEngagement e :: rest => e :: engagementsOf rest
  | _ :: rest => engagementsOf rest

/-- Type and direction of an engagement record. -/
def Engagement.kind (e : Engagement) : String × Option String :=
  (e.engagement_type, e.direction)

/-- Two collaborator records answer one call alike. -/
def Collaborators.sameReply (env env' : Collaborators) : Call → Prop
  | .searchContacts g p => env'.search g p = env.search g p
  | .createContact props => env'.createContact props = env.createContact props
  | .createEngagement e => env'.createEngagement e = env.createEngagement e
  | .fetchMessage path => env'.fetchMessage path = env.fetchMessage path

/-- A run stops at its first failing call: every call but the last succeeded,
and when the run produced a value the last one succeeded too. -/
def Run.StopsAtFailure (env : Collaborators) {α : Type} (r : Run α) : Prop :=
  (∀ c ∈ r.calls.dropLast, env.succeeds c = true) ∧
  (∀ a, r.value = some a → ∀ c ∈ r.calls, env.succeeds c = true)

/-- The run `r'` under `env'` continues the run `r` under `env`: provided `env'`
answers every call of `r` that succeeded as `env` did, either the two runs are
the same, or `r` threw and its calls open those of `r'`. -/
def Run.ContinuedBy (env env' : Collaborators) {α : Type} (r r' : Run α) : Prop :=
  (∀ b ∈ r.calls, env.succeeds b = true → env.sameReply env' b) →
    r = r' ∨ (r.value = none ∧ r.calls <+: r'.calls)

/-- A run throws only for a reason: when it produced no value, either one of
its calls failed or the exceptional condition `Q` holds. -/
def Run.ThrowsOnly (env : Collaborators) (Q : Prop) {α : Type} (r : Run α) : Prop :=
  r.value = none → (∃ c ∈ r.calls, env.succeeds c = false) ∨ Q

/-- The search of a request resolves with a positive total and no result to
read: `searchRes.data.results[0].id` then raises a `TypeError`. -/
def firstResultMissing (env : Collaborators) (data : JVal) : Prop :=
  ∃ r, env.search [buildFilters data] SEARCH_PROPERTIES = some r ∧ 0 < r.total ∧
    r.results = []

/-- One of the two template literals of the `try` block that is reached
throws: the fetch path, reached when `original_email_id` is truthy, or the
meeting body, reached for `lead_meeting_booked`. -/
def templateThrows (event data : JVal) : Prop :=
  (truthy (getProp data "original_email_id") = true ∧
      jsToString (getProp data "original_email_id") = none) ∨
    (strictEqStr event "lead_meeting_booked" = true ∧
      jsToString (getProp data "meeting_time") = none)

/-- The three payload values the search filters are built from, with the
property each is matched against. -/
def filterSources (data : JVal) : List (String × JVal) :=
  [ ("email", getProp data "email"),
    ("phone", getProp data "phone"),
    ("alternate_email", getPropOpt (getProp data "customFields") "alternate_email") ]

/-- The computed and copied fields of a new contact, before the custom fields
are merged in. -/
def baseProps (event data : JVal) : Obj :=
  [ ("email", getProp data "email"),
    ("phone", getProp data "phone"),
    ("firstname", jsOr (getProp data "first_name") (getProp data "firstName")),
    ("lastname", jsOr (getProp data "last_name") (getProp data "lastName")),
    ("company", getProp data "company"),
    ("website", getProp data "website"),
    ("linkedin", jsOr (getProp data "linkedin_url") (getProp data "linkedin")),
    ("hs_lead_status",
      .str (if strictEqStr event "lead_meeting_booked" then "Meeting scheduled"
            else "Interested")),
    ("hs_marketing_contact_status", .str "NON_MARKETING") ]

/-! ## Sample collaborators and requests -/

/-- A message as the campaign service returns it. -/
def sampleMessage : Obj :=
  [ ("subject", .str "Hello"), ("body", .str "World"),
    ("body_html", .str "<p>World</p>") ]

/-- A directory with no matching contact; every call succeeds. -/
def crmEmpty : Collaborators :=
  { search := fun _ _ => some ⟨0, []⟩
    createContact := fun _ => some [("id", .str "101")]
    createEngagement := fun _ => some ()
    fetchMessage := fun _ => some sampleMessage }

/-- A directory that finds two matches; every call succeeds. -/
def crmKnown : Collaborators :=
  { search := fun _ _ => some ⟨2, [[("id", .str "55")], [("id", .str "56")]]⟩
    createContact := fun _ => some [("id", .str "101")]
    createEngagement := fun _ => some ()
    fetchMessage := fun _ => some sampleMessage }

/-- A directory whose search reports one match and lists none; every call
succeeds. -/
def crmInconsistent : Collaborators :=
  { crmEmpty with search := fun _ _ => some ⟨1, []⟩ }

/-- As `crmEmpty`, but the campaign service rejects every fetch. -/
def crmFetchDown : Collaborators :=
  { crmEmpty with fetchMessage := fun _ => none }

/-- The end-to-end example of the specification. -/
def reqAnn : Request :=
  ⟨.str "lead_interested", .obj [("email", .str "a@b.com"), ("first_name", .str "Ann")]⟩

/-- A reply that carries the id of the message it answers. -/
def reqReply : Request :=
  ⟨.str "reply_received",
    .obj [ ("email", .str "a@b.com"), ("reply_text_snippet", .str "Yes, SURE"),
           ("original_email_id", .str "e1") ]⟩

/-- A booked meeting without `original_email_id`. -/
def reqMeeting : Request :=
  ⟨.str "lead_meeting_booked",
    .obj [("email", .str "a@b.com"), ("meeting_time", .str "2024-05-01T10:00")]⟩

/-- A booked meeting with `original_email_id`. -/
def reqMeetingFull : Request :=
  ⟨.str "lead_meeting_booked",
    .obj [ ("email", .str "a@b.com"), ("phone", .str "555"),
           ("original_email_id", .str "e1"),
           ("customFields", .obj [("alternate_email", .str "c@d.com")]) ]⟩

/-- A lead whose custom fields carry their own `hs_lead_status` and
`hs_marketing_contact_status`. -/
def reqOverride : Request :=
  ⟨.str "lead_interested",
    .obj [ ("email", .str "a@b.com"),
           ("customFields",
             .obj [ ("hs_lead_status", .str "Cold"),
                    ("hs_marketing_contact_status", .str "MARKETING"),
                    ("tier", .num 2 (by decide)) ]) ]⟩

/-- A reply whose snippet is a number. -/
def reqNumericSnippet : Request :=
  ⟨.str "reply_received", .obj [("reply_text_snippet", .num 123 (by decide))]⟩

/-- A reply whose snippet is the boolean `true`. -/
def reqBooleanSnippet : Request :=
  ⟨.str "reply_received", .obj [("email", .str "a@b.com"), ("reply_text_snippet", .bool true)]⟩

/-- A booked meeting whose `meeting_time` is an object with an own member
`toString`. -/
def reqMeetingOddTime : Request :=
  ⟨.str "lead_meeting_booked",
    .obj [ ("email", .str "a@b.com"),
           ("meeting_time", .obj [("toString", .num 1 (by decide))]) ]⟩


/-! ## Lemmas on strings and objects -/

theorem occursIn_iff (pat txt : List Nat) : occursIn pat txt = true ↔ pat <:+: txt := by
  unfold occursIn
  rw [List.any_eq_true]
  constructor
  · rintro ⟨t, ht, hpre⟩
    rw [List.mem_tails] at ht
    simp only [List.isPrefixOf_iff_prefix] at hpre
    exact List.infix_iff_prefix_suffix.mpr ⟨t, hpre, ht⟩
  · intro h
    obtain ⟨t, hpre, hsuf⟩ := List.infix_iff_prefix_suffix.mp h
    exact ⟨t, (List.mem_tails _ _).mpr hsuf,
      by simpa only [List.isPrefixOf_iff_prefix] using hpre⟩

theorem keywordTest_iff (txt : JsString) :
    keywordTest txt = true ↔ ∃ k ∈ KEYWORDS, utf16 k <:+: txt := by
  unfold keywordTest
  rw [List.any_eq_true]
  simp only [occursIn_iff]

theorem lookup?_eq_none_iff (k : String) (o : Obj) :
    lookup? k o = none ↔ k ∉ o.map Prod.fst := by
  induction o with
  | nil => simp [lookup?]
  | cons kv rest ih =>
    obtain ⟨k', v⟩ := kv
    simp only [lookup?, List.map_cons, List.mem_cons, not_or]
    cases h : lookup? k rest with
    | some w =>
      have hmem : k ∈ rest.map Prod.fst := by
        by_contra hn
        rw [ih.mpr hn] at h; cases h
      constructor
      · intro hw; cases hw
      · intro hn; exact absurd hmem hn.2
    | none =>
      have hn := ih.mp h
      by_cases hk : k' = k
      · simp [hk]
      · simp [hk, hn, Ne.symm hk]

theorem keys_setProp (o : Obj) (k : String) (v : JVal) :
    (setProp o k v).map Prod.fst =
      if k ∈ o.map Prod.fst then o.map Prod.fst else o.map Prod.fst ++ [k] := by
  induction o with
  | nil => simp [setProp]
  | cons kv rest ih =>
    obtain ⟨k', w⟩ := kv
    simp only [setProp]
    by_cases hk : k' = k
    · simp [hk]
    · simp only [hk, if_false, List.map_cons, ih, List.mem_cons, Ne.symm hk, false_or]
      split <;> simp

theorem nodup_keys_setProp (o : Obj) (k : String) (v : JVal)
    (h : (o.map Prod.fst).Nodup) : ((setProp o k v).map Prod.fst).Nodup := by
  rw [keys_setProp]
  split
  · exact h
  · rename_i hk
    exact List.Nodup.append h (List.nodup_singleton k) (by simpa using hk)

theorem lookup?_setProp (o : Obj) (k k' : String) (v : JVal)
    (h : (o.map Prod.fst).Nodup) :
    lookup? k (setProp o k' v) = if k' = k then some v else lookup? k o := by
  induction o with
  | nil => simp [setProp, lookup?]
  | cons kv rest ih =>
    obtain ⟨k₁, w⟩ := kv
    simp only [List.map_cons, List.nodup_cons] at h
    obtain ⟨hnot, hrest⟩ := h
    simp only [setProp]
    by_cases h1 : k₁ = k'
    · subst h1
      simp only [if_true, lookup?]
      by_cases h2 : k₁ = k
      · subst h2
        rw [(lookup?_eq_none_iff _ _).mpr hnot]; simp
      · simp [h2]
    · simp only [h1, if_false, lookup?, ih hrest]
      by_cases h2 : k' = k
      · subst h2; simp [h1]
      · simp [h2]

/-- Spread is last-write-wins: a key of `extra` takes the value `extra` gives
it, any other key keeps the value of `base`. -/
theorem lookup?_spreadInto (extra base : Obj) (k : String)
    (h : (base.map Prod.fst).Nodup) :
    lookup? k (spreadInto base extra) =
      match lookup? k extra with
      | some v => some v
      | none => lookup? k base := by
  unfold spreadInto
  induction extra generalizing base with
  | nil => simp [lookup?]
  | cons kv rest ih =>
    obtain ⟨k', v⟩ := kv
    simp only [List.foldl_cons, lookup?]
    rw [ih _ (nodup_keys_setProp base k' v h)]
    cases lookup? k rest with
    | some w => rfl
    | none =>
      simp only [lookup?_setProp base k k' v h]
      split <;> rfl

theorem contactProps_eq (event data : JVal) :
    contactProps event data =
      spreadInto (baseProps event data) (ownEntries (getProp data "customFields")) := rfl

theorem nodup_keys_baseProps (event data : JVal) :
    ((baseProps event data).map Prod.fst).Nodup := by
  simp [baseProps]

theorem lookup?_contactProps (event data : JVal) (k : String) :
    lookup? k (contactProps event data) =
      match lookup? k (ownEntries (getProp data "customFields")) with
      | some v => some v
      | none => lookup? k (baseProps event data) := by
  rw [contactProps_eq]
  exact lookup?_spreadInto _ _ k (nodup_keys_baseProps event data)

/-! ## Lemmas on the stages of the handler -/

theorem handler_processable (env : Collaborators) (req : Request)
    (hp : classify req = .processable) :
    handler env req =
      ⟨if (reconcile env req.event_type (payload req)).value.isSome then some 200 else some 500,
        (reconcile env req.event_type (payload req)).calls⟩ := by
  unfold handler
  rw [hp]
  cases h : (reconcile env req.event_type (payload req)).value <;> simp [h]

theorem resolveContact_eq (env : Collaborators) (event data : JVal) :
    resolveContact env event data =
      match env.search [buildFilters data] SEARCH_PROPERTIES with
      | none => ⟨[.searchContacts [buildFilters data] SEARCH_PROPERTIES], none⟩
      | some r =>
        if 0 < r.total then
          ⟨[.searchContacts [buildFilters data] SEARCH_PROPERTIES],
            r.results.head?.map (fun first => first.get "id")⟩
        else
          ⟨[.searchContacts [buildFilters data] SEARCH_PROPERTIES,
              .createContact (contactProps event data)],
            (env.createContact (contactProps event data)).map (fun c => c.get "id")⟩ := by
  unfold resolveContact Run.andThen await evaluate
  cases env.search [buildFilters data] SEARCH_PROPERTIES with
  | none => rfl
  | some r =>
    simp only [gt_iff_lt]
    by_cases ht : 0 < r.total
    · simp only [ht, if_true]
      cases r.results <;> rfl
    · simp only [ht, if_false]
      cases env.createContact (contactProps event data) <;> rfl

theorem logOriginal_eq (env : Collaborators) (data cid : JVal) :
    logOriginal env data cid =
      if truthy (getProp data "original_email_id") then
        match emailPath data with
        | none => ⟨[], none⟩
        | some path =>
          match env.fetchMessage path with
          | none => ⟨[.fetchMessage path], none⟩
          | some orig =>
            ⟨[.fetchMessage path, .createEngagement (outboundEmail orig cid)],
              env.createEngagement (outboundEmail orig cid)⟩
      else ⟨[], some ()⟩ := by
  unfold logOriginal Run.andThen await skip evaluate
  split
  · cases emailPath data with
    | none => rfl
    | some path =>
      simp only [List.nil_append]
      cases env.fetchMessage path <;> rfl
  · rfl

theorem logMeeting_eq (env : Collaborators) (event data cid : JVal) :
    logMeeting env event data cid =
      if strictEqStr event "lead_meeting_booked" then
        match meetingRecord data cid with
        | none => ⟨[], none⟩
        | some meeting => ⟨[.createEngagement meeting], env.createEngagement meeting⟩
      else ⟨[], some ()⟩ := by
  unfold logMeeting Run.andThen await skip evaluate
  split
  · cases meetingRecord data cid <;> rfl
  · rfl

theorem logAll_eq (env : Collaborators) (event data cid : JVal) :
    logAll env event data cid =
      match env.createEngagement (inboundEmail data cid) with
      | none => ⟨[.createEngagement (inboundEmail data cid)], none⟩
      | some _ =>
        match (logOriginal env data cid).value with
        | none =>
          ⟨.createEngagement (inboundEmail data cid) :: (logOriginal env data cid).calls, none⟩
        | some _ =>
          ⟨.createEngagement (inboundEmail data cid) ::
              ((logOriginal env data cid).calls ++ (logMeeting env event data cid).calls),
            (logMeeting env event data cid).value⟩ := by
  unfold logAll logInbound Run.andThen await
  cases env.createEngagement (inboundEmail data cid) with
  | none => rfl
  | some u =>
    simp only []
    cases (logOriginal env data cid).value <;> simp

theorem reconcile_eq (env : Collaborators) (event data : JVal) :
    reconcile env event data =
      (resolveContact env event data).andThen (logAll env event data) := rfl


/-! ## Classification -/

theorem validEvent_eq_false (event : JVal)
    (h1 : event ≠ .str "reply_received")
    (h2 : event ≠ .str "lead_interested")
    (h3 : event ≠ .str "lead_meeting_booked") :
    validEvent event = false := by
  cases event with
  | str s =>
    have e1 : s ≠ utf16 "reply_received" := fun h => h1 (by rw [h])
    have e2 : s ≠ utf16 "lead_interested" := fun h => h2 (by rw [h])
    have e3 : s ≠ utf16 "lead_meeting_booked" := fun h => h3 (by rw [h])
    simp [validEvent, VALID_EVENTS, e1, e2, e3]
  | _ => rfl

/-- C1: a request whose `event_type` is none of `'reply_received'`,
`'lead_interested'`, `'lead_meeting_booked'` (a missing `event_type` reads as
`undefined`) is answered 204 and no outbound call is issued, whatever the
payload and the collaborators. -/
theorem unrecognized_event_ignored (env : Collaborators) (req : Request)
    (h1 : req.event_type ≠ .str "reply_received")
    (h2 : req.event_type ≠ .str "lead_interested")
    (h3 : req.event_type ≠ .str "lead_meeting_booked") :
    handler env req = ⟨some 204, []⟩ := by
  have hv := validEvent_eq_false req.event_type h1 h2 h3
  simp [handler, classify, hv]

theorem unrecognized_event_ignored_witness :
    handler crmKnown ⟨.undefined, .obj [("email", .str "a@b.com")]⟩ = ⟨some 204, []⟩ ∧
    handler crmKnown ⟨.str "email_sent", .str "yes"⟩ = ⟨some 204, []⟩ :=
  ⟨unrecognized_event_ignored crmKnown _ (fun h => by cases h) (fun h => by cases h)
      (fun h => by cases h),
   unrecognized_event_ignored crmKnown _
      (fun h => absurd (JVal.str.inj h) (by decide))
      (fun h => absurd (JVal.str.inj h) (by decide))
      (fun h => absurd (JVal.str.inj h) (by decide))⟩

theorem classify_reply (req : Request) (s : JsString)
    (hev : req.event_type = .str "reply_received")
    (hs : getProp (payload req) "reply_text_snippet" = .str s ∨
      (truthy (getProp (payload req) "reply_text_snippet") = false ∧ s = [])) :
    classify req =
      if keywordTest (s.map lowerUnit) then .processable else .ignored := by
  have htxt : snippetText (payload req) = some (s.map lowerUnit) := by
    unfold snippetText jsOr
    rcases hs with h | ⟨h, rfl⟩
    · rw [h]
      split <;> rename_i ht
      · rfl
      · cases s with
        | nil => rfl
        | cons c cs => simp [truthy] at ht
    · rw [h]; rfl
  have hv : validEvent (.str (utf16 "reply_received")) = true := by decide
  have he : strictEqStr (.str (utf16 "reply_received")) "reply_received" = true := by decide
  simp only [classify, hev, htxt, hv, he]
  cases keywordTest (s.map lowerUnit) <;> simp

theorem processable_calls_ne_nil (env : Collaborators) (req : Request)
    (hp : classify req = .processable) : (handler env req).calls ≠ [] := by
  rw [handler_processable env req hp, reconcile_eq, resolveContact_eq]
  simp only [Run.andThen]
  cases env.search [buildFilters (payload req)] SEARCH_PROPERTIES with
  | none => simp
  | some r =>
    simp only []
    split <;> split <;> simp

/-- The keyword filter on the snippets that have a lower-cased text: for a
`reply_received` event whose `reply_text_snippet` is a string `s`, or is absent
or otherwise falsy (then `s` is the empty string), the handler issues an
outbound call if and only if lower-cased `s` contains one of `yes`,
`interested`, `schedule`, `sure`; when it contains none, the answer is 204
with no outbound call. -/
theorem reply_keyword_filter (env : Collaborators) (req : Request) (s : JsString)
    (hev : req.event_type = .str "reply_received")
    (hs : getProp (payload req) "reply_text_snippet" = .str s ∨
      (truthy (getProp (payload req) "reply_text_snippet") = false ∧ s = [])) :
    ((handler env req).calls ≠ [] ↔
        ∃ k ∈ ["yes", "interested", "schedule", "sure"],
          utf16 k <:+: s.map lowerUnit) ∧
      ((¬ ∃ k ∈ ["yes", "interested", "schedule", "sure"],
          utf16 k <:+: s.map lowerUnit) →
        handler env req = ⟨some 204, []⟩) := by
  have hc := classify_reply req s hev hs
  have hk := keywordTest_iff (s.map lowerUnit)
  simp only [KEYWORDS] at hk
  by_cases hkw : keywordTest (s.map lowerUnit) = true
  · rw [if_pos hkw] at hc
    have hex := hk.mp hkw
    exact ⟨⟨fun _ => hex, fun _ => processable_calls_ne_nil env req hc⟩,
      fun hn => absurd hex hn⟩
  · rw [if_neg hkw] at hc
    have hno : ¬ ∃ k ∈ ["yes", "interested", "schedule", "sure"],
        utf16 k <:+: s.map lowerUnit := fun hex => hkw (hk.mpr hex)
    have hh : handler env req = ⟨some 204, []⟩ := by simp [handler, hc]
    exact ⟨⟨fun hne => absurd (by rw [hh]) hne, fun hex => absurd hex hno⟩, fun _ => hh⟩

theorem reply_keyword_filter_examples :
    (reqReply.event_type = .str "reply_received" ∧
      getProp (payload reqReply) "reply_text_snippet" = .str "Yes, SURE") ∧
    (((handler crmEmpty reqReply).calls ≠ [] ↔
        ∃ k ∈ ["yes", "interested", "schedule", "sure"],
          utf16 k <:+: (utf16 "Yes, SURE").map lowerUnit) ∧
      ((¬ ∃ k ∈ ["yes", "interested", "schedule", "sure"],
          utf16 k <:+: (utf16 "Yes, SURE").map lowerUnit) →
        handler crmEmpty reqReply = ⟨some 204, []⟩)) ∧
    (((handler crmEmpty ⟨.str "reply_received", .obj []⟩).calls ≠ [] ↔
        ∃ k ∈ ["yes", "interested", "schedule", "sure"],
          utf16 k <:+: ([] : JsString).map lowerUnit) ∧
      ((¬ ∃ k ∈ ["yes", "interested", "schedule", "sure"],
          utf16 k <:+: ([] : JsString).map lowerUnit) →
        handler crmEmpty ⟨.str "reply_received", .obj []⟩ = ⟨some 204, []⟩)) :=
  ⟨⟨rfl, rfl⟩,
    reply_keyword_filter crmEmpty reqReply (utf16 "Yes, SURE") rfl (Or.inl rfl),
    reply_keyword_filter crmEmpty ⟨.str "reply_received", .obj []⟩ [] rfl (Or.inr ⟨rfl, rfl⟩)⟩

/-- C2, at the failing input: `reqBooleanSnippet` is a `reply_received` event
whose `reply_text_snippet` is `true`.  Its text has none of the keywords, so
the answer should be 204; the `toLowerCase` call throws before the `try`
block, and the handler sends no status at all (and issues no call), whatever
the collaborators do. -/
theorem boolean_snippet_not_answered_204 (env : Collaborators) :
    reqBooleanSnippet.event_type = .str "reply_received" ∧
    getProp (payload reqBooleanSnippet) "reply_text_snippet" = .bool true ∧
    jsToString (.bool true) = some (utf16 "true") ∧
    keywordTest (utf16 "true") = false ∧
    classify reqBooleanSnippet = .threw ∧
    (handler env reqBooleanSnippet).status = none ∧
    (handler env reqBooleanSnippet).status ≠ some 204 ∧
    (handler env reqBooleanSnippet).calls = [] :=
  ⟨rfl, rfl, rfl, by decide, rfl, rfl, fun h => Option.noConfusion h, rfl⟩

/-! ## Contact resolution -/

theorem logAll_no_search (env : Collaborators) (event data cid : JVal) :
    ∀ c ∈ (logAll env event data cid).calls, isSearch c = false := by
  simp only [logAll_eq, logOriginal_eq, logMeeting_eq]
  intro c hc
  repeat' split at hc
  all_goals simp_all [isSearch]
  all_goals (rcases hc with rfl | rfl | rfl | rfl <;> rfl)

theorem logAll_no_create (env : Collaborators) (event data cid : JVal) :
    ∀ c ∈ (logAll env event data cid).calls, isCreate c = false := by
  simp only [logAll_eq, logOriginal_eq, logMeeting_eq]
  intro c hc
  repeat' split at hc
  all_goals simp_all [isCreate]
  all_goals (rcases hc with rfl | rfl | rfl | rfl <;> rfl)

theorem meetingRecord_contactId (data cid : JVal) (m : Engagement)
    (h : meetingRecord data cid = some m) : m.contactId = cid := by
  unfold meetingRecord at h
  cases ht : jsToString (getProp data "meeting_time") with
  | none => simp [ht] at h
  | some t =>
    simp only [ht, Option.map_some', Option.some.injEq] at h
    rw [← h]

theorem meetingRecord_kind (data cid : JVal) (m : Engagement)
    (h : meetingRecord data cid = some m) : m.kind = ("MEETING", none) := by
  unfold meetingRecord at h
  cases ht : jsToString (getProp data "meeting_time") with
  | none => simp [ht] at h
  | some t =>
    simp only [ht, Option.map_some', Option.some.injEq] at h
    rw [← h]
    rfl

theorem logAll_contactId (env : Collaborators) (event data cid : JVal) :
    ∀ e, Call.createEngagement e ∈ (logAll env event data cid).calls → e.contactId = cid := by
  simp only [logAll_eq, logOriginal_eq, logMeeting_eq]
  intro e hc
  repeat' split at hc
  all_goals simp_all [inboundEmail, outboundEmail]
  all_goals
    (rcases hc with rfl | rfl | rfl | rfl <;>
      first | rfl | exact meetingRecord_contactId _ _ _ (by assumption))

theorem getPropOpt_eq (v : JVal) (k : String) : getPropOpt v k = getProp v k := by
  cases v <;> rfl

theorem buildFilters_eq (data : JVal) :
    buildFilters data =
      ((filterSources data).filter (fun kv => truthy kv.2)).map
        (fun kv => ⟨kv.1, "EQ", kv.2⟩) := by
  unfold buildFilters filterSources
  simp only [getPropOpt_eq]
  cases h1 : truthy (getProp data "email") <;>
    cases h2 : truthy (getProp data "phone") <;>
    cases h3 : truthy (getProp (getProp data "customFields") "alternate_email") <;>
    simp [List.filter, h1, h2, h3]

/-- C9: for a processable event the first outbound call is a contact search,
no later call is one, and the search has one filter group that holds, in the
order email, phone, `customFields.alternate_email`, an `EQ` predicate with the
payload's value for each of the three that is truthy, and nothing else; when
none of the three is truthy the search is issued with an empty filter list. -/
theorem search_first_with_filters (env : Collaborators) (req : Request)
    (hp : classify req = .processable) :
    (∃ rest,
      (handler env req).calls =
        .searchContacts
          [((filterSources (payload req)).filter (fun kv => truthy kv.2)).map
            (fun kv => ⟨kv.1, "EQ", kv.2⟩)]
          ["email", "phone", "firstname", "lastname"] :: rest ∧
      ∀ c ∈ rest, isSearch c = false) ∧
    ((∀ kv ∈ filterSources (payload req), truthy kv.2 = false) →
      ∃ rest, (handler env req).calls =
        .searchContacts [[]] ["email", "phone", "firstname", "lastname"] :: rest) := by
  have main : ∃ rest,
      (handler env req).calls =
        .searchContacts [buildFilters (payload req)] SEARCH_PROPERTIES :: rest ∧
      ∀ c ∈ rest, isSearch c = false := by
    rw [handler_processable env req hp, reconcile_eq, resolveContact_eq]
    simp only [Run.andThen]
    cases env.search [buildFilters (payload req)] SEARCH_PROPERTIES with
    | none => exact ⟨[], rfl, by simp⟩
    | some r =>
      simp only []
      by_cases ht : 0 < r.total
      · simp only [ht, if_true]
        cases r.results.head? with
        | none => exact ⟨[], rfl, by simp⟩
        | some first => exact ⟨_, rfl, logAll_no_search env _ _ _⟩
      · simp only [ht, if_false]
        cases env.createContact (contactProps req.event_type (payload req)) with
        | none => exact ⟨_, rfl, by simp [isSearch]⟩
        | some created =>
          refine ⟨_, rfl, ?_⟩
          intro c hc
          have hc' : c = .createContact (contactProps req.event_type (payload req)) ∨
              c ∈ (logAll env req.event_type (payload req) (created.get "id")).calls := by
            simpa using hc
          rcases hc' with rfl | hc
          · rfl
          · exact logAll_no_search env _ _ _ c hc
  rw [buildFilters_eq] at main
  refine ⟨main, fun hnone => ?_⟩
  obtain ⟨rest, hrest, _⟩ := main
  refine ⟨rest, ?_⟩
  rw [hrest]
  have : (filterSources (payload req)).filter (fun kv => truthy kv.2) = [] := by
    rw [List.filter_eq_nil_iff]
    intro kv hkv
    simp [hnone kv hkv]
  rw [this]
  rfl

theorem search_first_with_filters_witness :
    classify reqMeetingFull = .processable ∧
    ((∃ rest,
      (handler crmKnown reqMeetingFull).calls =
        .searchContacts
          [((filterSources (payload reqMeetingFull)).filter (fun kv => truthy kv.2)).map
            (fun kv => ⟨kv.1, "EQ", kv.2⟩)]
          ["email", "phone", "firstname", "lastname"] :: rest ∧
      ∀ c ∈ rest, isSearch c = false) ∧
    ((∀ kv ∈ filterSources (payload reqMeetingFull), truthy kv.2 = false) →
      ∃ rest, (handler crmKnown reqMeetingFull).calls =
        .searchContacts [[]] ["email", "phone", "firstname", "lastname"] :: rest)) ∧
    ((filterSources (payload reqMeetingFull)).filter (fun kv => truthy kv.2)).map
        (fun kv => (⟨kv.1, "EQ", kv.2⟩ : Filter)) =
      [⟨"email", "EQ", .str "a@b.com"⟩, ⟨"phone", "EQ", .str "555"⟩,
       ⟨"alternate_email", "EQ", .str "c@d.com"⟩] :=
  ⟨rfl, search_first_with_filters crmKnown reqMeetingFull rfl, rfl⟩


theorem reconcile_calls_of_match (env : Collaborators) (event data : JVal)
    (r : SearchResponse)
    (hs : env.search [buildFilters data] SEARCH_PROPERTIES = some r) (hm : 0 < r.total) :
    (reconcile env event data).calls =
      .searchContacts [buildFilters data] SEARCH_PROPERTIES ::
        (match r.results with
         | [] => []
         | first :: _ => (logAll env event data (first.get "id")).calls) := by
  rw [reconcile_eq, resolveContact_eq, hs]
  simp only [hm, if_true, Run.andThen]
  cases r.results <;> rfl

theorem reconcile_calls_of_no_match (env : Collaborators) (event data : JVal)
    (r : SearchResponse)
    (hs : env.search [buildFilters data] SEARCH_PROPERTIES = some r) (hm : ¬ 0 < r.total) :
    (reconcile env event data).calls =
      .searchContacts [buildFilters data] SEARCH_PROPERTIES ::
        .createContact (contactProps event data) ::
          (match env.createContact (contactProps event data) with
           | none => []
           | some created => (logAll env event data (created.get "id")).calls) := by
  rw [reconcile_eq, resolveContact_eq, hs]
  simp only [hm, if_false, Run.andThen]
  cases env.createContact (contactProps event data) <;> rfl

/-- C3: when the contact search of a processable event reports a positive
total, no contact-create call is issued, and every engagement record logged
is associated with the `id` of the first search result. -/
theorem match_reuses_first_result (env : Collaborators) (req : Request)
    (r : SearchResponse) (hp : classify req = .processable)
    (hs : env.search [buildFilters (payload req)] ["email", "phone", "firstname", "lastname"]
      = some r)
    (hm : 0 < r.total) :
    (∀ props, Call.createContact props ∉ (handler env req).calls) ∧
    (∀ e, Call.createEngagement e ∈ (handler env req).calls →
      ∃ first rest, r.results = first :: rest ∧ e.contactId = first.get "id") := by
  rw [handler_processable env req hp]
  simp only [reconcile_calls_of_match env _ _ r hs hm]
  cases hres : r.results with
  | nil => simp
  | cons first rest =>
    simp only [List.mem_cons, false_or]
    constructor
    · intro props hmem
      rcases hmem with h | h
      · cases h
      · have := logAll_no_create env _ _ _ _ h
        simp [isCreate] at this
    · intro e hmem
      rcases hmem with h | h
      · cases h
      · exact ⟨first, rest, rfl, logAll_contactId env _ _ _ e h⟩

theorem match_reuses_first_result_witness :
    (classify reqReply = .processable ∧
      crmKnown.search [buildFilters (payload reqReply)]
        ["email", "phone", "firstname", "lastname"] =
          some ⟨2, [[("id", .str "55")], [("id", .str "56")]]⟩) ∧
    ((∀ props, Call.createContact props ∉ (handler crmKnown reqReply).calls) ∧
      (∀ e, Call.createEngagement e ∈ (handler crmKnown reqReply).calls →
        ∃ first rest,
          (⟨2, [[("id", .str "55")], [("id", .str "56")]]⟩ : SearchResponse).results =
            first :: rest ∧
          e.contactId = first.get "id")) ∧
    (engagementsOf (handler crmKnown reqReply).calls).map (fun e => jsToString e.contactId) =
      [some (utf16 "55"), some (utf16 "55")] :=
  ⟨⟨rfl, rfl⟩,
    match_reuses_first_result crmKnown reqReply ⟨2, [[("id", .str "55")], [("id", .str "56")]]⟩
      rfl rfl (by decide),
    rfl⟩

theorem filter_isCreate_logAll (env : Collaborators) (event data cid : JVal) :
    (logAll env event data cid).calls.filter isCreate = [] := by
  rw [List.filter_eq_nil_iff]
  intro c hc
  simp [logAll_no_create env event data cid c hc]

theorem create_calls_of_no_match (env : Collaborators) (req : Request)
    (r : SearchResponse) (hp : classify req = .processable)
    (hs : env.search [buildFilters (payload req)] SEARCH_PROPERTIES = some r)
    (hm : ¬ 0 < r.total) :
    (handler env req).calls.filter isCreate =
        [.createContact (contactProps req.event_type (payload req))] ∧
      (handler env req).calls.get? 1 =
        some (.createContact (contactProps req.event_type (payload req))) := by
  rw [handler_processable env req hp]
  simp only [reconcile_calls_of_no_match env _ _ r hs hm]
  cases env.createContact (contactProps req.event_type (payload req)) with
  | none => simp [List.filter, isCreate, isSearch]
  | some created =>
    simp [List.filter, isCreate, filter_isCreate_logAll]

/-- C4 (amended): when the contact search of a processable event reports no
match, exactly one contact-create call is issued; unless `customFields`
carries its own `hs_lead_status`, the properties sent have `hs_lead_status`
`'Meeting scheduled'` for `lead_meeting_booked` and `'Interested'` otherwise;
unless `customFields` carries its own `hs_marketing_contact_status`, they have
`hs_marketing_contact_status` `'NON_MARKETING'`. -/
theorem no_match_creates_once (env : Collaborators) (req : Request)
    (r : SearchResponse) (hp : classify req = .processable)
    (hs : env.search [buildFilters (payload req)] ["email", "phone", "firstname", "lastname"]
      = some r)
    (hm : ¬ 0 < r.total) :
    ∃ props, (handler env req).calls.filter isCreate = [.createContact props] ∧
      (lookup? "hs_lead_status" (ownEntries (getProp (payload req) "customFields")) = none →
        (req.event_type = .str "lead_meeting_booked" →
          lookup? "hs_lead_status" props = some (.str "Meeting scheduled")) ∧
        (req.event_type ≠ .str "lead_meeting_booked" →
          lookup? "hs_lead_status" props = some (.str "Interested"))) ∧
      (lookup? "hs_marketing_contact_status"
          (ownEntries (getProp (payload req) "customFields")) = none →
        lookup? "hs_marketing_contact_status" props = some (.str "NON_MARKETING")) := by
  refine ⟨_, (create_calls_of_no_match env req r hp hs hm).1, ?_, ?_⟩
  · intro hnone
    rw [lookup?_contactProps, hnone]
    constructor
    · intro hev
      simp [baseProps, lookup?, hev, strictEqStr]
    · intro hev
      have : strictEqStr req.event_type "lead_meeting_booked" = false := by
        cases hE : req.event_type with
        | str s =>
          have : s ≠ "lead_meeting_booked" := fun h => hev (by rw [hE, h])
          simp [strictEqStr, this]
        | _ => rfl
      simp [baseProps, lookup?, this]
  · intro hnone
    rw [lookup?_contactProps, hnone]
    simp [baseProps, lookup?]

theorem no_match_creates_once_witness :
    (classify reqMeeting = .processable ∧
      crmEmpty.search [buildFilters (payload reqMeeting)]
        ["email", "phone", "firstname", "lastname"] = some ⟨0, []⟩ ∧
      ¬ 0 < (⟨0, []⟩ : SearchResponse).total) ∧
    ∃ props, (handler crmEmpty reqMeeting).calls.filter isCreate = [.createContact props] ∧
      (lookup? "hs_lead_status"
          (ownEntries (getProp (payload reqMeeting) "customFields")) = none →
        (reqMeeting.event_type = .str "lead_meeting_booked" →
          lookup? "hs_lead_status" props = some (.str "Meeting scheduled")) ∧
        (reqMeeting.event_type ≠ .str "lead_meeting_booked" →
          lookup? "hs_lead_status" props = some (.str "Interested"))) ∧
      (lookup? "hs_marketing_contact_status"
          (ownEntries (getProp (payload reqMeeting) "customFields")) = none →
        lookup? "hs_marketing_contact_status" props = some (.str "NON_MARKETING")) :=
  ⟨⟨rfl, rfl, by decide⟩,
    no_match_creates_once crmEmpty reqMeeting ⟨0, []⟩ rfl rfl (by decide)⟩

/-- C4 as stated fails: `reqOverride` is a processable `lead_interested`
event, the search reports no match, and the one create call carries
`hs_lead_status` `'Cold'` and `hs_marketing_contact_status` `'MARKETING'`, the
values of its custom fields, not `'Interested'` and `'NON_MARKETING'`. -/
theorem custom_field_overrides_lead_status :
    classify reqOverride = .processable ∧
    crmEmpty.search [buildFilters (payload reqOverride)]
        ["email", "phone", "firstname", "lastname"] = some ⟨0, []⟩ ∧
    reqOverride.event_type = .str "lead_interested" ∧
    ∃ props, (handler crmEmpty reqOverride).calls.filter isCreate = [.createContact props] ∧
      lookup? "hs_lead_status" props = some (.str "Cold") ∧
      lookup? "hs_lead_status" props ≠ some (.str "Interested") ∧
      lookup? "hs_marketing_contact_status" props = some (.str "MARKETING") ∧
      lookup? "hs_marketing_contact_status" props ≠ some (.str "NON_MARKETING") :=
  ⟨rfl, rfl, rfl, _, rfl, rfl,
    fun h => absurd (JVal.str.inj (Option.some.inj h)) (by decide),
    rfl,
    fun h => absurd (JVal.str.inj (Option.some.inj h)) (by decide)⟩

/-- C10: when the contact search of a processable event reports no match, the
second call creates a contact whose properties are the base mapping overridden
by `customFields`: every key of `customFields` has the value `customFields`
gives it, and every other key has exactly what the base mapping gives it
(nothing, for a key the base mapping lacks). -/
theorem create_props_merge (env : Collaborators) (req : Request)
    (r : SearchResponse) (hp : classify req = .processable)
    (hs : env.search [buildFilters (payload req)] ["email", "phone", "firstname", "lastname"]
      = some r)
    (hm : ¬ 0 < r.total) :
    ∃ props, (handler env req).calls.get? 1 = some (.createContact props) ∧
      (∀ k v, lookup? k (ownEntries (getProp (payload req) "customFields")) = some v →
        lookup? k props = some v) ∧
      (∀ k, lookup? k (ownEntries (getProp (payload req) "customFields")) = none →
        lookup? k props =
          lookup? k
            [ ("email", getProp (payload req) "email"),
              ("phone", getProp (payload req) "phone"),
              ("firstname",
                jsOr (getProp (payload req) "first_name") (getProp (payload req) "firstName")),
              ("lastname",
                jsOr (getProp (payload req) "last_name") (getProp (payload req) "lastName")),
              ("company", getProp (payload req) "company"),
              ("website", getProp (payload req) "website"),
              ("linkedin",
                jsOr (getProp (payload req) "linkedin_url") (getProp (payload req) "linkedin")),
              ("hs_lead_status",
                .str (if strictEqStr req.event_type "lead_meeting_booked" then
                        "Meeting scheduled"
                      else "Interested")),
              ("hs_marketing_contact_status", .str "NON_MARKETING") ]) := by
  refine ⟨_, (create_calls_of_no_match env req r hp hs hm).2, ?_, ?_⟩
  · intro k v hk
    rw [lookup?_contactProps, hk]
  · intro k hk
    rw [lookup?_contactProps, hk]
    rfl

theorem create_props_merge_witness :
    (classify reqOverride = .processable ∧
      crmEmpty.search [buildFilters (payload reqOverride)]
        ["email", "phone", "firstname", "lastname"] = some ⟨0, []⟩ ∧
      ¬ 0 < (⟨0, []⟩ : SearchResponse).total) ∧
    (∃ props, (handler crmEmpty reqOverride).calls.get? 1 = some (.createContact props) ∧
      (∀ k v, lookup? k (ownEntries (getProp (payload reqOverride) "customFields")) = some v →
        lookup? k props = some v) ∧
      (∀ k, lookup? k (ownEntries (getProp (payload reqOverride) "customFields")) = none →
        lookup? k props =
          lookup? k
            [ ("email", getProp (payload reqOverride) "email"),
              ("phone", getProp (payload reqOverride) "phone"),
              ("firstname",
                jsOr (getProp (payload reqOverride) "first_name")
                  (getProp (payload reqOverride) "firstName")),
              ("lastname",
                jsOr (getProp (payload reqOverride) "last_name")
                  (getProp (payload reqOverride) "lastName")),
              ("company", getProp (payload reqOverride) "company"),
              ("website", getProp (payload reqOverride) "website"),
              ("linkedin",
                jsOr (getProp (payload reqOverride) "linkedin_url")
                  (getProp (payload reqOverride) "linkedin")),
              ("hs_lead_status",
                .str (if strictEqStr reqOverride.event_type "lead_meeting_booked" then
                        "Meeting scheduled"
                      else "Interested")),
              ("hs_marketing_contact_status", .str "NON_MARKETING") ])) ∧
    (handler crmEmpty reqOverride).calls.get? 1 =
      some (.createContact
        [ ("email", .str "a@b.com"), ("phone", .undefined), ("firstname", .undefined),
          ("lastname", .undefined), ("company", .undefined), ("website", .undefined),
          ("linkedin", .undefined), ("hs_lead_status", .str "Cold"),
          ("hs_marketing_contact_status", .str "MARKETING"), ("tier", .num 2 (by decide)) ]) :=
  ⟨⟨rfl, rfl, by decide⟩,
    create_props_merge crmEmpty reqOverride ⟨0, []⟩ rfl rfl (by decide),
    rfl⟩



/-! ## Engagement logging -/

theorem engagementsOf_append (xs ys : List Call) :
    engagementsOf (xs ++ ys) = engagementsOf xs ++ engagementsOf ys := by
  induction xs with
  | nil => rfl
  | cons c rest ih =>
    cases c <;> simp [engagementsOf, ih]

theorem engagementsOf_resolveContact (env : Collaborators) (event data : JVal) :
    engagementsOf (resolveContact env event data).calls = [] := by
  rw [resolveContact_eq]
  cases env.search [buildFilters data] SEARCH_PROPERTIES with
  | none => rfl
  | some r =>
    simp only []
    split <;> rfl

theorem logAll_kinds (env : Collaborators) (event data cid : JVal) (u : Unit)
    (hv : (logAll env event data cid).value = some u) :
    (engagementsOf (logAll env event data cid).calls).map Engagement.kind =
      ("EMAIL", some "IN") ::
        ((if truthy (getProp data "original_email_id") then [("EMAIL", some "OUT")] else []) ++
          (if strictEqStr event "lead_meeting_booked" then [("MEETING", none)] else [])) := by
  simp only [logAll_eq, logOriginal_eq, logMeeting_eq] at hv ⊢
  cases hI : env.createEngagement (inboundEmail data cid) with
  | none => simp [hI] at hv
  | some u1 =>
    simp only [hI] at hv ⊢
    by_cases hid : truthy (getProp data "original_email_id") = true
    · simp only [hid, if_true] at hv ⊢
      cases hP : emailPath data with
      | none => simp [hP] at hv
      | some path =>
        simp only [hP] at hv ⊢
        cases hF : env.fetchMessage path with
        | none => simp [hF] at hv
        | some orig =>
          simp only [hF] at hv ⊢
          cases hO : env.createEngagement (outboundEmail orig cid) with
          | none => simp [hO] at hv
          | some u2 =>
            simp only [hO] at hv ⊢
            by_cases hmb : strictEqStr event "lead_meeting_booked" = true
            · simp only [hmb, if_true] at hv ⊢
              cases hM : meetingRecord data cid with
              | none => simp [hM] at hv
              | some m =>
                have hk := meetingRecord_kind data cid m hM
                simp [engagementsOf, Engagement.kind, inboundEmail, outboundEmail] at hk ⊢
                exact hk
            · simp [hmb, engagementsOf, Engagement.kind, inboundEmail, outboundEmail]
    · simp only [hid] at hv ⊢
      by_cases hmb : strictEqStr event "lead_meeting_booked" = true
      · simp only [hmb, if_true] at hv ⊢
        cases hM : meetingRecord data cid with
        | none => simp [hM] at hv
        | some m =>
          have hk := meetingRecord_kind data cid m hM
          simp [engagementsOf, Engagement.kind, inboundEmail] at hk ⊢
          exact hk
      · simp [hmb, engagementsOf, Engagement.kind, inboundEmail]

theorem strictEqStr_iff (v : JVal) (lit : String) :
    strictEqStr v lit = true ↔ v = .str (utf16 lit) := by
  cases v <;> simp [strictEqStr]

/-- C5 (amended): for a processable event that the handler answers with 200
(every collaborator call succeeded and no other step of the `try` block
threw), the engagement records logged are, in this order and with no others:
one `EMAIL` record with direction `IN`; one `EMAIL` record with direction
`OUT` exactly when `original_email_id` is present (truthy); one `MEETING`
record exactly when the event is `lead_meeting_booked`.  So a
`lead_meeting_booked` event with `original_email_id` logs exactly inbound
email, outbound email, meeting, and a `reply_received` event without it logs
exactly one inbound email. -/
theorem engagement_sequence (env : Collaborators) (req : Request)
    (hp : classify req = .processable)
    (h200 : (handler env req).status = some 200) :
    (engagementsOf (handler env req).calls).map Engagement.kind =
        ("EMAIL", some "IN") ::
          ((if truthy (getProp (payload req) "original_email_id") then
              [("EMAIL", some "OUT")] else []) ++
            (if strictEqStr req.event_type "lead_meeting_booked" then
              [("MEETING", none)] else [])) ∧
    (req.event_type = .str "lead_meeting_booked" →
      truthy (getProp (payload req) "original_email_id") = true →
      (engagementsOf (handler env req).calls).map Engagement.kind =
        [("EMAIL", some "IN"), ("EMAIL", some "OUT"), ("MEETING", none)]) ∧
    (req.event_type = .str "reply_received" →
      truthy (getProp (payload req) "original_email_id") = false →
      (engagementsOf (handler env req).calls).map Engagement.kind =
        [("EMAIL", some "IN")]) := by
  have main : (engagementsOf (handler env req).calls).map Engagement.kind =
        ("EMAIL", some "IN") ::
          ((if truthy (getProp (payload req) "original_email_id") then
              [("EMAIL", some "OUT")] else []) ++
            (if strictEqStr req.event_type "lead_meeting_booked" then
              [("MEETING", none)] else [])) := by
    rw [handler_processable env req hp] at h200 ⊢
    simp only at h200 ⊢
    rw [reconcile_eq] at h200 ⊢
    unfold Run.andThen at h200 ⊢
    cases hr : (resolveContact env req.event_type (payload req)).value with
    | none => simp [hr] at h200
    | some cid =>
      simp only [hr] at h200 ⊢
      cases hv : (logAll env req.event_type (payload req) cid).value with
      | none => simp [hv] at h200
      | some u =>
        rw [engagementsOf_append, engagementsOf_resolveContact, List.nil_append]
        exact logAll_kinds env _ _ cid u hv
  refine ⟨main, ?_, ?_⟩
  · intro hev hid
    rw [main, hid, hev]
    rfl
  · intro hev hid
    rw [main, hid, hev]
    rfl

theorem engagement_sequence_witness :
    (classify reqMeetingFull = .processable ∧
      (handler crmKnown reqMeetingFull).status = some 200) ∧
    (engagementsOf (handler crmKnown reqMeetingFull).calls).map Engagement.kind =
        ("EMAIL", some "IN") ::
          ((if truthy (getProp (payload reqMeetingFull) "original_email_id") then
              [("EMAIL", some "OUT")] else []) ++
            (if strictEqStr reqMeetingFull.event_type "lead_meeting_booked" then
              [("MEETING", none)] else [])) ∧
    (reqMeetingFull.event_type = .str "lead_meeting_booked" →
      truthy (getProp (payload reqMeetingFull) "original_email_id") = true →
      (engagementsOf (handler crmKnown reqMeetingFull).calls).map Engagement.kind =
        [("EMAIL", some "IN"), ("EMAIL", some "OUT"), ("MEETING", none)]) ∧
    (reqMeetingFull.event_type = .str "reply_received" →
      truthy (getProp (payload reqMeetingFull) "original_email_id") = false →
      (engagementsOf (handler crmKnown reqMeetingFull).calls).map Engagement.kind =
        [("EMAIL", some "IN")]) :=
  ⟨⟨rfl, rfl⟩, engagement_sequence crmKnown reqMeetingFull rfl rfl⟩

theorem crmEmpty_succeeds (c : Call) : crmEmpty.succeeds c = true := by
  cases c <;> rfl

theorem crmKnown_succeeds (c : Call) : crmKnown.succeeds c = true := by
  cases c <;> rfl

theorem crmInconsistent_succeeds (c : Call) : crmInconsistent.succeeds c = true := by
  cases c <;> rfl

/-- C5 as stated fails, in three ways.  `reqMeeting` is a processable
`lead_meeting_booked` event, every call succeeds, and exactly two engagement
records are logged (inbound email, meeting), since it has no
`original_email_id`.  For `reqMeetingOddTime`, also `lead_meeting_booked`, the
template literal of the meeting body throws on its `meeting_time`: every call
issued succeeded, the answer is 500 and no `MEETING` record is logged.  And
when the search succeeds with a positive total and an empty result list,
reading the first result throws: every call issued succeeded, the answer is
500 and no engagement record is logged. -/
theorem meeting_without_original_logs_two :
    (classify reqMeeting = .processable ∧
      reqMeeting.event_type = .str "lead_meeting_booked" ∧
      (∀ c ∈ (handler crmEmpty reqMeeting).calls, crmEmpty.succeeds c = true) ∧
      (handler crmEmpty reqMeeting).status = some 200 ∧
      (engagementsOf (handler crmEmpty reqMeeting).calls).map Engagement.kind =
        [("EMAIL", some "IN"), ("MEETING", none)] ∧
      (engagementsOf (handler crmEmpty reqMeeting).calls).length ≠ 3) ∧
    (classify reqMeetingOddTime = .processable ∧
      reqMeetingOddTime.event_type = .str "lead_meeting_booked" ∧
      (∀ c ∈ (handler crmEmpty reqMeetingOddTime).calls, crmEmpty.succeeds c = true) ∧
      (handler crmEmpty reqMeetingOddTime).status = some 500 ∧
      (engagementsOf (handler crmEmpty reqMeetingOddTime).calls).map Engagement.kind =
        [("EMAIL", some "IN")]) ∧
    (classify reqAnn = .processable ∧
      (∀ c ∈ (handler crmInconsistent reqAnn).calls, crmInconsistent.succeeds c = true) ∧
      (handler crmInconsistent reqAnn).status = some 500 ∧
      (handler crmInconsistent reqAnn).calls.length = 1 ∧
      engagementsOf (handler crmInconsistent reqAnn).calls = []) :=
  ⟨⟨rfl, rfl, fun c _ => crmEmpty_succeeds c, rfl, rfl, by decide⟩,
    ⟨rfl, rfl, fun c _ => crmEmpty_succeeds c, rfl, rfl⟩,
    rfl, fun c _ => crmInconsistent_succeeds c, rfl, rfl, rfl⟩

/-! ## Failures -/

theorem stopsAtFailure_andThen (env : Collaborators) {α β : Type} (r : Run α)
    (f : α → Run β) (hr : r.StopsAtFailure env) (hf : ∀ a, (f a).StopsAtFailure env) :
    (r.andThen f).StopsAtFailure env := by
  unfold Run.andThen
  cases hv : r.value with
  | none =>
    refine ⟨hr.1, ?_⟩
    intro a ha
    cases ha
  | some a =>
    have hall := hr.2 a hv
    constructor
    · intro c hc
      simp only at hc
      by_cases hnil : (f a).calls = []
      · rw [hnil, List.append_nil] at hc
        exact hall c (List.mem_of_mem_dropLast hc)
      · rw [List.dropLast_append_of_ne_nil _ hnil, List.mem_append] at hc
        rcases hc with hc | hc
        · exact hall c hc
        · exact (hf a).1 c hc
    · intro b hb c hc
      simp only at hb hc
      rw [List.mem_append] at hc
      rcases hc with hc | hc
      · exact hall c hc
      · exact (hf a).2 b hb c hc

theorem stopsAtFailure_await (env : Collaborators) {α : Type} (c : Call)
    (reply : Option α) (h : env.succeeds c = reply.isSome) :
    (await c reply).StopsAtFailure env := by
  constructor
  · intro b hb
    simp [Automation.await] at hb
  · intro a ha b hb
    simp only [Automation.await] at ha hb
    rw [List.mem_singleton] at hb
    rw [hb, h, ha]
    rfl

theorem stopsAtFailure_silent (env : Collaborators) {α : Type} (v : Option α) :
    (⟨[], v⟩ : Run α).StopsAtFailure env :=
  ⟨fun c hc => by simp at hc, fun _ _ c hc => by simp at hc⟩

theorem stopsAtFailure_evaluate (env : Collaborators) {α : Type} (v : Option α) :
    (evaluate v).StopsAtFailure env :=
  stopsAtFailure_silent env v

theorem resolveContact_stopsAtFailure (env : Collaborators) (event data : JVal) :
    (resolveContact env event data).StopsAtFailure env := by
  unfold resolveContact
  apply stopsAtFailure_andThen
  · exact stopsAtFailure_await env _ _ rfl
  · intro r
    split
    · split
      · exact stopsAtFailure_evaluate env _
      · exact stopsAtFailure_evaluate env _
    · apply stopsAtFailure_andThen
      · exact stopsAtFailure_await env _ _ rfl
      · intro _; exact stopsAtFailure_evaluate env _

theorem logOriginal_stopsAtFailure (env : Collaborators) (data cid : JVal) :
    (logOriginal env data cid).StopsAtFailure env := by
  unfold logOriginal
  split
  · apply stopsAtFailure_andThen
    · exact stopsAtFailure_evaluate env _
    · intro path
      apply stopsAtFailure_andThen
      · exact stopsAtFailure_await env _ _ rfl
      · intro orig; exact stopsAtFailure_await env _ _ rfl
  · exact stopsAtFailure_silent env _

theorem logMeeting_stopsAtFailure (env : Collaborators) (event data cid : JVal) :
    (logMeeting env event data cid).StopsAtFailure env := by
  unfold logMeeting
  split
  · apply stopsAtFailure_andThen
    · exact stopsAtFailure_evaluate env _
    · intro meeting; exact stopsAtFailure_await env _ _ rfl
  · exact stopsAtFailure_silent env _

theorem reconcile_stopsAtFailure (env : Collaborators) (event data : JVal) :
    (reconcile env event data).StopsAtFailure env := by
  unfold reconcile
  apply stopsAtFailure_andThen
  · exact resolveContact_stopsAtFailure env event data
  · intro cid
    apply stopsAtFailure_andThen
    · exact stopsAtFailure_await env _ _ rfl
    · intro _
      apply stopsAtFailure_andThen
      · exact logOriginal_stopsAtFailure env data cid
      · intro _; exact logMeeting_stopsAtFailure env event data cid

theorem continuedBy_andThen (env env' : Collaborators) {α β : Type} (r r' : Run α)
    (f f' : α → Run β) (hr : r.ContinuedBy env env' r')
    (hf : ∀ a, (f a).ContinuedBy env env' (f' a)) :
    (r.andThen f).ContinuedBy env env' (r'.andThen f') := by
  intro hagree
  have hsub : ∀ b ∈ r.calls, b ∈ (r.andThen f).calls := by
    intro b hb
    unfold Run.andThen
    cases r.value with
    | none => exact hb
    | some a => exact List.mem_append_left _ hb
  rcases hr (fun b hb => hagree b (hsub b hb)) with heq | ⟨hnone, hpre⟩
  · subst heq
    cases hv : r.value with
    | none =>
      left
      simp [Run.andThen, hv]
    | some a =>
      have hsub2 : ∀ b ∈ (f a).calls, b ∈ (r.andThen f).calls := by
        intro b hb
        simp only [Run.andThen, hv]
        exact List.mem_append_right _ hb
      rcases hf a (fun b hb => hagree b (hsub2 b hb)) with heq | ⟨hnone, hpre⟩
      · left
        simp [Run.andThen, hv, heq]
      · right
        simp only [Run.andThen, hv]
        exact ⟨hnone, (List.prefix_append_right_inj _).mpr hpre⟩
  · right
    have h1 : r.andThen f = ⟨r.calls, none⟩ := by simp [Run.andThen, hnone]
    rw [h1]
    refine ⟨rfl, hpre.trans ?_⟩
    unfold Run.andThen
    cases r'.value with
    | none => exact List.prefix_refl _
    | some a => exact List.prefix_append _ _

theorem continuedBy_await (env env' : Collaborators) {α : Type} (c : Call)
    (reply reply' : Option α) (hs : env.succeeds c = reply.isSome)
    (hsame : env.sameReply env' c → reply' = reply) :
    (await c reply).ContinuedBy env env' (await c reply') := by
  intro hagree
  cases hr : reply with
  | none => exact Or.inr ⟨rfl, List.prefix_refl _⟩
  | some a =>
    left
    have := hsame (hagree c (by simp [Automation.await]) (by rw [hs, hr]; rfl))
    rw [this, hr]

theorem continuedBy_same (env env' : Collaborators) {α : Type} (r : Run α) :
    r.ContinuedBy env env' r :=
  fun _ => Or.inl rfl

theorem reconcile_continuedBy (env env' : Collaborators) (event data : JVal) :
    (reconcile env event data).ContinuedBy env env' (reconcile env' event data) := by
  unfold reconcile
  apply continuedBy_andThen
  · unfold resolveContact
    apply continuedBy_andThen
    · exact continuedBy_await env env' _ _ _ rfl id
    · intro r
      split
      · exact continuedBy_same env env' _
      · apply continuedBy_andThen
        · exact continuedBy_await env env' _ _ _ rfl id
        · intro _; exact continuedBy_same env env' _
  · intro cid
    apply continuedBy_andThen
    · exact continuedBy_await env env' _ _ _ rfl id
    · intro _
      apply continuedBy_andThen
      · unfold logOriginal
        split
        · apply continuedBy_andThen
          · exact continuedBy_same env env' _
          · intro path
            apply continuedBy_andThen
            · exact continuedBy_await env env' _ _ _ rfl id
            · intro orig; exact continuedBy_await env env' _ _ _ rfl id
        · exact continuedBy_same env env' _
      · intro _
        unfold logMeeting
        split
        · apply continuedBy_andThen
          · exact continuedBy_same env env' _
          · intro meeting; exact continuedBy_await env env' _ _ _ rfl id
        · exact continuedBy_same env env' _

/-- C6: when a call issued for a processable event fails, the handler answers
500, the failing call is the last call issued and every call before it
succeeded; and the calls issued open the call sequence of every run of the same
request in which the calls that succeeded here are answered alike, the run in
which all calls succeed among them. -/
theorem failure_stops_run (env : Collaborators) (req : Request) (c : Call)
    (hp : classify req = .processable)
    (hc : c ∈ (handler env req).calls) (hf : env.succeeds c = false) :
    (handler env req).status = some 500 ∧
    (∃ before, (handler env req).calls = before ++ [c] ∧
      ∀ b ∈ before, env.succeeds b = true) ∧
    (∀ env' : Collaborators,
      (∀ b ∈ (handler env req).calls, env.succeeds b = true → env.sameReply env' b) →
      (handler env req).calls <+: (handler env' req).calls) := by
  have hstop := reconcile_stopsAtFailure env req.event_type (payload req)
  rw [handler_processable env req hp] at hc ⊢
  simp only at hc ⊢
  have hval : (reconcile env req.event_type (payload req)).value = none := by
    cases hv : (reconcile env req.event_type (payload req)).value with
    | none => rfl
    | some a =>
      have := hstop.2 a hv c hc
      rw [hf] at this
      cases this
  refine ⟨by simp [hval], ?_, ?_⟩
  · have hne : (reconcile env req.event_type (payload req)).calls ≠ [] :=
      List.ne_nil_of_mem hc
    have hsplit := List.dropLast_append_getLast hne
    have hlast : (reconcile env req.event_type (payload req)).calls.getLast hne = c := by
      rw [← hsplit, List.mem_append, List.mem_singleton] at hc
      rcases hc with hc | hc
      · have := hstop.1 c hc
        rw [hf] at this
        cases this
      · exact hc.symm
    rw [hlast] at hsplit
    exact ⟨_, hsplit.symm, hstop.1⟩
  · intro env' hagree
    rw [handler_processable env' req hp]
    rcases reconcile_continuedBy env env' req.event_type (payload req) hagree with
      heq | ⟨_, hpre⟩
    · simp only
      rw [← heq]
    · exact hpre

theorem failure_stops_run_witness :
    (classify reqReply = .processable ∧
      crmFetchDown.succeeds (.fetchMessage "/emails/e1") = false) ∧
    ((handler crmFetchDown reqReply).status = some 500 ∧
      (∃ before, (handler crmFetchDown reqReply).calls =
          before ++ [.fetchMessage "/emails/e1"] ∧
        ∀ b ∈ before, crmFetchDown.succeeds b = true) ∧
      (∀ env' : Collaborators,
        (∀ b ∈ (handler crmFetchDown reqReply).calls,
          crmFetchDown.succeeds b = true → crmFetchDown.sameReply env' b) →
        (handler crmFetchDown reqReply).calls <+: (handler env' reqReply).calls)) ∧
    (handler crmFetchDown reqReply).calls.length = 4 ∧
    (handler crmEmpty reqReply).calls.length = 5 :=
  ⟨⟨rfl, rfl⟩,
    failure_stops_run crmFetchDown reqReply (.fetchMessage "/emails/e1") rfl
      (List.Mem.tail _ (List.Mem.tail _ (List.Mem.tail _ (List.Mem.head _)))) rfl,
    rfl, rfl⟩

theorem meetingRecord_direction (data cid : JVal) (m : Engagement)
    (h : meetingRecord data cid = some m) : m.direction = none := by
  have hk := meetingRecord_kind data cid m h
  exact congrArg Prod.snd hk

theorem logAll_outbound (env : Collaborators) (event data cid : JVal) (path : JsString)
    (msg : Obj) (e : Engagement) (hpath : emailPath data = some path)
    (hfetch : env.fetchMessage path = some msg)
    (he : Call.createEngagement e ∈ (logAll env event data cid).calls)
    (hout : e.direction = some "OUT") : e = outboundEmail msg cid := by
  have hin : (inboundEmail data cid).direction ≠ some "OUT" := by
    simp [inboundEmail]
  have hmeet : ∀ m, meetingRecord data cid = some m → e ≠ m := by
    intro m hm heq
    rw [heq, meetingRecord_direction data cid m hm] at hout
    cases hout
  simp only [logAll_eq, logOriginal_eq, logMeeting_eq, hpath, hfetch] at he
  repeat' split at he
  all_goals simp only [List.mem_cons, List.mem_singleton, List.mem_append, List.not_mem_nil,
    Call.createEngagement.injEq, or_false, false_or, reduceCtorEq] at he
  all_goals
    first
    | exact absurd he (fun h => hin (h ▸ hout))
    | (rcases he with h | h
       · exact absurd (h ▸ hout) hin
       · first
         | exact h
         | exact absurd h (hmeet _ (by assumption)))
    | (rcases he with h | h | h
       · exact absurd (h ▸ hout) hin
       · exact h
       · exact absurd h (hmeet _ (by assumption)))

theorem calls_of_not_processable (env : Collaborators) (req : Request)
    (h : classify req ≠ .processable) : (handler env req).calls = [] := by
  unfold handler
  cases hc : classify req with
  | ignored => rfl
  | threw => rfl
  | processable => exact absurd hc h

theorem engagement_mem_logAll (env : Collaborators) (req : Request) (e : Engagement)
    (he : Call.createEngagement e ∈ (handler env req).calls) :
    ∃ cid, Call.createEngagement e ∈
      (logAll env req.event_type (payload req) cid).calls := by
  by_cases hp : classify req = .processable
  · rw [handler_processable env req hp] at he
    simp only at he
    cases hs : env.search [buildFilters (payload req)] SEARCH_PROPERTIES with
    | none =>
      rw [reconcile_eq, resolveContact_eq, hs] at he
      simp [Run.andThen] at he
    | some r =>
      by_cases hm : 0 < r.total
      · rw [reconcile_calls_of_match env _ _ r hs hm] at he
        cases hres : r.results with
        | nil => simp [hres] at he
        | cons first rest =>
          simp only [hres, List.mem_cons, false_or] at he
          rcases he with h | h
          · cases h
          · exact ⟨_, h⟩
      · rw [reconcile_calls_of_no_match env _ _ r hs hm] at he
        cases hc : env.createContact (contactProps req.event_type (payload req)) with
        | none => simp [hc] at he
        | some created =>
          simp only [hc, List.mem_cons, false_or] at he
          rcases he with h | h | h
          · cases h
          · cases h
          · exact ⟨_, h⟩
  · rw [calls_of_not_processable env req hp] at he
    cases he

/-- C7 (amended): the outbound `EMAIL` record logged for a request has, as
subject, the `subject` field of the message the fetch returned and, as body,
its `body_html` field, both unchanged. -/
theorem outbound_copies_fetched_message (env : Collaborators) (req : Request)
    (path : JsString) (msg : Obj) (e : Engagement)
    (hpath : emailPath (payload req) = some path)
    (hfetch : env.fetchMessage path = some msg)
    (he : Call.createEngagement e ∈ (handler env req).calls)
    (hout : e.direction = some "OUT") :
    e.engagement_type = "EMAIL" ∧ e.subject = msg.get "subject" ∧
      e.body = msg.get "body_html" := by
  obtain ⟨cid, hmem⟩ := engagement_mem_logAll env req e he
  rw [logAll_outbound env _ _ cid path msg e hpath hfetch hmem hout]
  exact ⟨rfl, rfl, rfl⟩

theorem outbound_copies_fetched_message_witness :
    (emailPath (payload reqReply) = some (utf16 "/emails/e1") ∧
      crmEmpty.fetchMessage (utf16 "/emails/e1") = some sampleMessage ∧
      (handler crmEmpty reqReply).calls.get? 4 =
        some (.createEngagement
          ⟨"EMAIL", .str "Hello", .str "<p>World</p>", some "OUT", .str "101"⟩)) ∧
    ((⟨"EMAIL", .str "Hello", .str "<p>World</p>", some "OUT", .str "101"⟩ :
        Engagement).engagement_type = "EMAIL" ∧
      (⟨"EMAIL", .str "Hello", .str "<p>World</p>", some "OUT", .str "101"⟩ :
        Engagement).subject = sampleMessage.get "subject" ∧
      (⟨"EMAIL", .str "Hello", .str "<p>World</p>", some "OUT", .str "101"⟩ :
        Engagement).body = sampleMessage.get "body_html") :=
  ⟨⟨rfl, rfl, rfl⟩,
    outbound_copies_fetched_message crmEmpty reqReply (utf16 "/emails/e1") sampleMessage
      ⟨"EMAIL", .str "Hello", .str "<p>World</p>", some "OUT", .str "101"⟩ rfl rfl
      (List.Mem.tail _ (List.Mem.tail _ (List.Mem.tail _ (List.Mem.tail _ (List.Mem.head _)))))
      rfl⟩

/-- C7 as stated fails: for `reqReply` the fetch returns `sampleMessage`, whose
`body` field is `'World'`, and the outbound `EMAIL` record that is logged has
body `'<p>World</p>'`, the message's `body_html` field. -/
theorem outbound_body_is_not_body_field :
    classify reqReply = .processable ∧
    truthy (getProp (payload reqReply) "original_email_id") = true ∧
    emailPath (payload reqReply) = some (utf16 "/emails/e1") ∧
    crmEmpty.fetchMessage (utf16 "/emails/e1") = some sampleMessage ∧
    sampleMessage.get "body" = .str "World" ∧
    ∃ e, (handler crmEmpty reqReply).calls.get? 4 = some (.createEngagement e) ∧
      e.direction = some "OUT" ∧
      e.body = .str "<p>World</p>" ∧
      e.body ≠ sampleMessage.get "body" :=
  ⟨rfl, rfl, rfl, rfl, rfl,
    ⟨"EMAIL", .str "Hello", .str "<p>World</p>", some "OUT", .str "101"⟩, rfl, rfl, rfl,
    fun h => absurd (JVal.str.inj h) (by decide)⟩

/-! ## Response status -/

theorem status_of_ignored (env : Collaborators) (req : Request)
    (h : classify req = .ignored) : handler env req = ⟨some 204, []⟩ := by
  simp [handler, h]

theorem status_of_processable (env : Collaborators) (req : Request)
    (h : classify req = .processable) :
    (handler env req).status = some 200 ∨ (handler env req).status = some 500 := by
  rw [handler_processable env req h]
  cases (reconcile env req.event_type (payload req)).value <;> simp

theorem status_of_threw (env : Collaborators) (req : Request)
    (h : classify req = .threw) : handler env req = ⟨none, []⟩ := by
  simp [handler, h]

theorem throwsOnly_andThen (env : Collaborators) (Q : Prop) {α β : Type} (r : Run α)
    (f : α → Run β) (hr : r.ThrowsOnly env Q)
    (hf : ∀ a, r.value = some a → (f a).ThrowsOnly env Q) :
    (r.andThen f).ThrowsOnly env Q := by
  intro hnone
  unfold Run.andThen at hnone ⊢
  cases hv : r.value with
  | none =>
    rcases hr hv with ⟨c, hc, hfail⟩ | hq
    · exact Or.inl ⟨c, hc, hfail⟩
    · exact Or.inr hq
  | some a =>
    rw [hv] at hnone
    rcases hf a hv hnone with ⟨c, hc, hfail⟩ | hq
    · exact Or.inl ⟨c, List.mem_append_right _ hc, hfail⟩
    · exact Or.inr hq

theorem throwsOnly_await (env : Collaborators) (Q : Prop) {α : Type} (c : Call)
    (reply : Option α) (h : env.succeeds c = reply.isSome) :
    (await c reply).ThrowsOnly env Q := by
  intro hnone
  left
  refine ⟨c, List.mem_singleton.mpr rfl, ?_⟩
  simp only [Automation.await] at hnone
  rw [h, hnone]
  rfl

theorem throwsOnly_value (env : Collaborators) (Q : Prop) {α : Type} (a : α) :
    (⟨[], some a⟩ : Run α).ThrowsOnly env Q :=
  fun h => by cases h

theorem throwsOnly_evaluate (env : Collaborators) (Q : Prop) {α : Type} (v : Option α)
    (h : v = none → Q) : (evaluate v).ThrowsOnly env Q :=
  fun hnone => Or.inr (h hnone)

theorem emailPath_eq_none (data : JVal) :
    emailPath data = none ↔ jsToString (getProp data "original_email_id") = none := by
  unfold emailPath
  cases jsToString (getProp data "original_email_id") <;> simp

theorem meetingRecord_eq_none (data cid : JVal) :
    meetingRecord data cid = none ↔ jsToString (getProp data "meeting_time") = none := by
  unfold meetingRecord
  cases jsToString (getProp data "meeting_time") <;> simp

theorem reconcile_throwsOnly (env : Collaborators) (event data : JVal) :
    (reconcile env event data).ThrowsOnly env
      (firstResultMissing env data ∨ templateThrows event data) := by
  unfold reconcile
  apply throwsOnly_andThen
  · unfold resolveContact
    apply throwsOnly_andThen
    · exact throwsOnly_await env _ _ _ rfl
    · intro r hr
      split
      · rename_i hpos
        split
        · exact throwsOnly_evaluate env _ _ (fun h => by cases h)
        · rename_i hnil
          exact throwsOnly_evaluate env _ _ (fun _ => Or.inl ⟨r, hr, hpos, hnil⟩)
      · apply throwsOnly_andThen
        · exact throwsOnly_await env _ _ _ rfl
        · intro _ _; exact throwsOnly_evaluate env _ _ (fun h => by cases h)
  · intro cid _
    apply throwsOnly_andThen
    · exact throwsOnly_await env _ _ _ rfl
    · intro _ _
      apply throwsOnly_andThen
      · unfold logOriginal
        split
        · rename_i hid
          apply throwsOnly_andThen
          · exact throwsOnly_evaluate env _ _
              (fun h => Or.inr (Or.inl ⟨hid, (emailPath_eq_none data).mp h⟩))
          · intro path _
            apply throwsOnly_andThen
            · exact throwsOnly_await env _ _ _ rfl
            · intro orig _; exact throwsOnly_await env _ _ _ rfl
        · exact throwsOnly_value env _ _
      · intro _ _
        unfold logMeeting
        split
        · rename_i hmb
          apply throwsOnly_andThen
          · exact throwsOnly_evaluate env _ _
              (fun h => Or.inr (Or.inr ⟨hmb, (meetingRecord_eq_none data cid).mp h⟩))
          · intro meeting _; exact throwsOnly_await env _ _ _ rfl
        · exact throwsOnly_value env _ _

theorem logAll_value_of_templateThrows (env : Collaborators) (event data cid : JVal)
    (h : templateThrows event data) : (logAll env event data cid).value = none := by
  simp only [logAll_eq, logOriginal_eq, logMeeting_eq]
  cases env.createEngagement (inboundEmail data cid) with
  | none => rfl
  | some u1 =>
    simp only []
    rcases h with ⟨hid, hstr⟩ | ⟨hmb, hstr⟩
    · simp [hid, (emailPath_eq_none data).mpr hstr]
    · simp only [hmb, if_true, (meetingRecord_eq_none data cid).mpr hstr]
      split <;> rfl

/-- The answer to a processable event is 200 exactly when every call issued
succeeded, the search did not report a positive total with an empty result
list, and neither template literal that is reached throws; by
`status_of_processable` it is 500 otherwise. -/
theorem status_200_iff (env : Collaborators) (req : Request)
    (hp : classify req = .processable) :
    (handler env req).status = some 200 ↔
      (∀ c ∈ (handler env req).calls, env.succeeds c = true) ∧
        ¬ firstResultMissing env (payload req) ∧
        ¬ templateThrows req.event_type (payload req) := by
  rw [handler_processable env req hp]
  simp only
  constructor
  · intro h200
    cases hv : (reconcile env req.event_type (payload req)).value with
    | none => simp [hv] at h200
    | some u =>
      refine ⟨(reconcile_stopsAtFailure env _ _).2 u hv, ?_, ?_⟩
      · rintro ⟨r, hr, hpos, hnil⟩
        rw [reconcile_eq, resolveContact_eq, hr] at hv
        simp [hpos, hnil, Run.andThen] at hv
      · intro hthrows
        rw [reconcile_eq] at hv
        unfold Run.andThen at hv
        cases hr : (resolveContact env req.event_type (payload req)).value with
        | none => simp [hr] at hv
        | some cid =>
          simp only [hr] at hv
          rw [logAll_value_of_templateThrows env _ _ cid hthrows] at hv
          cases hv
  · rintro ⟨hall, hq, ht⟩
    cases hv : (reconcile env req.event_type (payload req)).value with
    | some u => simp
    | none =>
      rcases reconcile_throwsOnly env _ _ hv with ⟨c, hc, hfail⟩ | hmiss | hthrows
      · rw [hall c hc] at hfail
        cases hfail
      · exact absurd hmiss hq
      · exact absurd hthrows ht

/-- C8, at the failing input: a `reply_received` request whose
`reply_text_snippet` is the number 123 gets no response status at all (the
`toLowerCase` call throws before the `try` block) and no outbound call,
whatever the collaborators do. -/
theorem numeric_snippet_unanswered (env : Collaborators) :
    classify reqNumericSnippet = .threw ∧
    (handler env reqNumericSnippet).status = none ∧
    (handler env reqNumericSnippet).calls = [] :=
  ⟨rfl, rfl, rfl⟩

end Automation
